import Mathlib

/-!
Shallow embedding of the in-kernel Python stack sampler
(`src/bpf/unwinders/pyperf.bpf.c`) together with a verification of its
natural-language specification.

Modelling conventions:

* User/kernel memory is modelled by `Mem`: `word` gives the value stored at
  an address (`none` when the probe read would fail) and `str` gives the
  NUL-terminated byte string starting at an address (`none` on failure).
* `bpf_probe_read_user` / `bpf_probe_read` of a scalar: on failure the helper
  returns a nonzero error code and zero-fills the destination buffer, so
  `probeReadWord` returns the pair (err, value) with value `0` on failure.
* Pointers and 64-bit values are `Nat`; structure-field offsets are `Int`
  because the offset tables use `-1` as the "field not present in this
  Python version" sentinel.  Address arithmetic is carried out over `Int`;
  the user-space addresses involved sit far below `2^64`, so wrap-around is
  immaterial to evaluation of these programs on the inputs of interest.
* Constants and helpers that live in headers not part of this snapshot
  (`pyperf.h`, `shared.h`, `tls.h`) are modelled from the spec and marked
  `Modelled from the spec` in their doc comments.
-/

/-- Memory as seen through the bounded probe-read helpers: `word` is the
scalar stored at an address, `str` the NUL-terminated byte string there. -/
structure Mem where
  word : Int → Option Nat
  str : Int → Option (List Nat)

/-- `bpf_probe_read_user` / `bpf_probe_read` of a pointer-sized scalar:
returns `(err, value)`; on failure the error code is nonzero and the
destination is zero-filled by the kernel helper. -/
def probeReadWord (m : Mem) (addr : Int) : Int × Nat :=
  match m.word addr with
  | some v => (0, v)
  | none => (-1, 0)

/-- A 4-byte probe read (`int owner`, `u32 lineno`): the stored value
truncated to 32 bits, zero-filled on failure. -/
def probeReadU32 (m : Mem) (addr : Int) : Int × Nat :=
  match m.word addr with
  | some v => (0, v % 2 ^ 32)
  | none => (-1, 0)

/-- Field offsets inside `PyObject` (`pyperf.h` data model, per spec §3). -/
structure PyObjectOffsets where
  ob_type : Int
deriving DecidableEq

structure PyStringOffsets where
  data : Int
deriving DecidableEq

structure PyTypeObjectOffsets where
  tp_name : Int
deriving DecidableEq

structure PyThreadStateOffsets where
  frame : Int
  cframe : Int
  thread_id : Int
deriving DecidableEq

structure PyCFrameOffsets where
  current_frame : Int
deriving DecidableEq

structure PyCodeObjectOffsets where
  co_filename : Int
  co_name : Int
  co_varnames : Int
  co_firstlineno : Int
deriving DecidableEq

structure PyFrameObjectOffsets where
  f_back : Int
  f_code : Int
  f_localsplus : Int
deriving DecidableEq

structure PyInterpreterFrameOffsets where
  owner : Int
deriving DecidableEq

structure PyTupleObjectOffsets where
  ob_item : Int
deriving DecidableEq

/-- Per-version byte offsets inside Python internal structures; a field
offset of `-1` means "not present in this version" (spec §3). -/
structure PythonVersionOffsets where
  py_object : PyObjectOffsets
  py_string : PyStringOffsets
  py_type_object : PyTypeObjectOffsets
  py_thread_state : PyThreadStateOffsets
  py_cframe : PyCFrameOffsets
  py_code_object : PyCodeObjectOffsets
  py_frame_object : PyFrameObjectOffsets
  py_tuple_object : PyTupleObjectOffsets
  py_interpreter_frame : PyInterpreterFrameOffsets
deriving DecidableEq

/-- Per-libc offsets used for the TLS pthread-key slot computation. -/
structure LibcOffsets where
  pthread_size : Int
  pthread_block : Int
  pthread_key_data : Int
  pthread_key_data_size : Int
deriving DecidableEq

/-- Modelled from the spec: the libc-implementation discriminants from the
missing `pyperf.h`; only their distinctness matters. -/
def LIBC_IMPLEMENTATION_GLIBC : Nat := 0

/-- Modelled from the spec: see `LIBC_IMPLEMENTATION_GLIBC`. -/
def LIBC_IMPLEMENTATION_MUSL : Nat := 1

/-- Per-process interpreter metadata supplied by the collaborator. -/
structure InterpreterInfo where
  thread_state_addr : Nat
  use_tls : Bool
  tls_key : Int
  py_version_index : Nat
  libc_implementation : Nat
  libc_offset_index : Nat
deriving DecidableEq

/-- The BPF maps read by the core (spec §6); modelled as partial lookups. -/
structure Maps where
  pid_to_interpreter_info : Nat → Option InterpreterInfo
  version_specific_offsets : Nat → Option PythonVersionOffsets
  glibc_offsets : Nat → Option LibcOffsets
  musl_offsets : Nat → Option LibcOffsets

/-- The two CPU architectures the source is compiled for (`__TARGET_ARCH_x86`
and `__TARGET_ARCH_arm64` conditional compilation). -/
inductive Arch where
  | x86_64
  | arm64
deriving DecidableEq

/-- `tls_read` (pyperf.bpf.c lines 102-156): computes the address of the
pthread-key slot from the libc/arch layout tables, dereferencing one
intermediate pointer for musl, and reads the thread-state pointer from the
final address.  Returns `none` where the C function returns `-1`. -/
def tls_read (arch : Arch) (maps : Maps) (mem : Mem) (tls_base : Int) (ii : InterpreterInfo) : Option Nat :=
  if ii.libc_implementation = LIBC_IMPLEMENTATION_GLIBC then
    match maps.glibc_offsets ii.libc_offset_index with
    | none => none
    | some lo =>
      let tls_addr : Int :=
        match arch with
        | .x86_64 => tls_base + lo.pthread_block + ii.tls_key * lo.pthread_key_data_size + lo.pthread_key_data
        | .arm64 =>
            tls_base - lo.pthread_size + lo.pthread_block + ii.tls_key * lo.pthread_key_data_size +
              lo.pthread_key_data
      mem.word tls_addr
  else if ii.libc_implementation = LIBC_IMPLEMENTATION_MUSL then
    match maps.musl_offsets ii.libc_offset_index with
    | none => none
    | some lo =>
      let block_addr : Int :=
        match arch with
        | .x86_64 => tls_base + lo.pthread_block
        | .arm64 => tls_base - lo.pthread_size + lo.pthread_block
      match mem.word block_addr with
      | none => none
      | some p => mem.word ((p : Int) + ii.tls_key * lo.pthread_key_data_size)
  else
    none

/-- The glibc pthread-key slot address exactly as the spec's libc/arch table
states it (spec §4.2); to be compared against `tls_read`. -/
def spec_glibc_slot_addr (arch : Arch) (lo : LibcOffsets) (tls_base : Int) (key : Int) : Int :=
  match arch with
  | .x86_64 => tls_base + lo.pthread_block + key * lo.pthread_key_data_size + lo.pthread_key_data
  | .arm64 => tls_base - lo.pthread_size + lo.pthread_block + key * lo.pthread_key_data_size + lo.pthread_key_data

/-- The address of the musl intermediate pointer per the spec's table. -/
def spec_musl_block_addr (arch : Arch) (lo : LibcOffsets) (tls_base : Int) : Int :=
  match arch with
  | .x86_64 => tls_base + lo.pthread_block
  | .arm64 => tls_base - lo.pthread_size + lo.pthread_block

/-- The whole musl path per the spec: dereference the intermediate pointer,
add `key * pthread_key_data_size`, read the final address. -/
def spec_musl_read (arch : Arch) (lo : LibcOffsets) (mem : Mem) (tls_base : Int) (key : Int) : Option Nat :=
  match mem.word (spec_musl_block_addr arch lo tls_base) with
  | none => none
  | some p => mem.word ((p : Int) + key * lo.pthread_key_data_size)

inductive StackStatus where
  | complete
  | truncated
deriving DecidableEq

/-- The active per-CPU sample (spec §3); `stack` is the ordered sequence of
64-bit frame encodings `sample.stack.addresses[0..len)`. -/
structure Sample where
  pid : Nat
  tid : Nat
  stack : List Nat
  stack_status : StackStatus
deriving DecidableEq

/-- The per-CPU scratch `State` shared by P1 and the P2 tail calls. -/
structure State where
  interpreter_info : InterpreterInfo
  thread_state : Nat
  current_pthread : Nat
  frame_ptr : Nat
  stack_walker_prog_call_count : Nat
  sample : Sample
deriving DecidableEq

/-- Outcome of one P1 invocation (`unwind_python_stack`).
`silentReturn` covers the plain `return 0` exits that record nothing
(kernel-thread event, missing scratch, missing offsets entry);
`errorSample` is the `goto error` path ending in `ERROR_SAMPLE`;
`submitWithoutUnwinding` is `ERROR_MSG(err_ctx, msg)` followed by the
`submit_without_unwinding` label (per spec §7 this publishes an error
sample carrying `msg`, and no stack); `tailCall` hands the scratch state to
the P2 walker. -/
inductive P1Result where
  | silentReturn
  | errorSample (msg : String)
  | submitWithoutUnwinding (msg : String)
  | tailCall (st : State)
deriving DecidableEq

/-- Lines 210-244 of `unwind_python_stack`: the direct dereference of
`thread_state_addr` (when nonzero) followed by the independent TLS
resolution block (when `use_tls` is set).  Note the two `if`s are not
chained by `else` in the source. -/
def directThreadState (mem : Mem) (ii : InterpreterInfo) (st : State) : Except String State :=
  if ii.thread_state_addr ≠ 0 then
    match mem.word (ii.thread_state_addr : Int) with
    | none => .error "failed read of thread_state_addr"
    | some ts => .ok { st with thread_state := ts }
  else
    .ok st

def tlsThreadState (arch : Arch) (maps : Maps) (mem : Mem) (tls_base : Int) (ii : InterpreterInfo) (st1 : State) :
    Except String State :=
  if ii.use_tls then
    match tls_read arch maps mem tls_base ii with
    | none => .error "failed read of TLS"
    | some ts =>
      if ts = 0 then .error "thread_state was NULL"
      else .ok { st1 with thread_state := ts }
  else
    .ok st1

def resolveThreadState (arch : Arch) (maps : Maps) (mem : Mem) (tls_base : Int) (ii : InterpreterInfo) (st : State) :
    Except String State :=
  match directThreadState mem ii st with
  | .error e => .error e
  | .ok st1 => tlsThreadState arch maps mem tls_base ii st1

/-- Lines 263-292: obtain the top frame pointer from `PyThreadState`,
directly via the `frame` offset when present, otherwise through
`cframe -> current_frame`.  The error code of the `current_frame` read
(line 286) is ignored in the source; on failure the destination is
zero-filled and caught by the `frame_ptr == 0` check. -/
def fetchTopFrame (mem : Mem) (offsets : PythonVersionOffsets) (st : State) : Except String State :=
  if offsets.py_thread_state.frame > -1 then
    if (probeReadWord mem ((st.thread_state : Int) + offsets.py_thread_state.frame)).1 ≠ 0 then
      .error "failed read of thread_state->frame"
    else
      .ok { st with frame_ptr := (probeReadWord mem ((st.thread_state : Int) + offsets.py_thread_state.frame)).2 }
  else
    if (probeReadWord mem ((st.thread_state : Int) + offsets.py_thread_state.cframe)).1 ≠ 0 then
      .error "failed read of thread_state->cframe"
    else if (probeReadWord mem ((st.thread_state : Int) + offsets.py_thread_state.cframe)).2 = 0 then
      .error "cframe was NULL"
    else
      .ok { st with frame_ptr :=
        (probeReadWord mem
          (((probeReadWord mem ((st.thread_state : Int) + offsets.py_thread_state.cframe)).2 : Int) +
            offsets.py_cframe.current_frame)).2 }

/-- Lines 195-203: the per-CPU `State` after the `bpf_large_memzero` reset,
the copy of `InterpreterInfo` and the stamping of `pid`, `tid` and the
initial `stack_status`. -/
def initState (interpreter_info : InterpreterInfo) (pid tid : Nat) : State :=
  { interpreter_info := interpreter_info
    thread_state := 0
    current_pthread := 0
    frame_ptr := 0
    stack_walker_prog_call_count := 0
    sample := { pid := pid, tid := tid, stack := [], stack_status := .complete } }

/-- P1, `unwind_python_stack` (pyperf.bpf.c lines 163-305).  `tls_base` is
the per-architecture TLS base register value obtained through
`read_tls_base` (in the missing `tls.h`), passed in as a parameter. -/
def unwind_python_stack (arch : Arch) (maps : Maps) (mem : Mem) (tls_base : Int) (pid tid : Nat) : P1Result :=
  if pid = 0 then .silentReturn
  else
    match maps.pid_to_interpreter_info pid with
    | none => .errorSample "interpreter_info was NULL"
    | some interpreter_info =>
      match resolveThreadState arch maps mem tls_base interpreter_info (initState interpreter_info pid tid) with
      | .error msg => .submitWithoutUnwinding msg
      | .ok state1 =>
        match maps.version_specific_offsets interpreter_info.py_version_index with
        | none => .silentReturn
        | some offsets =>
          if (probeReadWord mem ((state1.thread_state : Int) + offsets.py_thread_state.thread_id)).1 ≠ 0 then
            .submitWithoutUnwinding "failed read of thread_state->thread_id"
          else
            match fetchTopFrame mem offsets
                { state1 with current_pthread :=
                    (probeReadWord mem ((state1.thread_state : Int) + offsets.py_thread_state.thread_id)).2 } with
            | .error msg => .submitWithoutUnwinding msg
            | .ok state3 =>
              if state3.frame_ptr = 0 then .submitWithoutUnwinding "frame_ptr was NULL"
              else .tailCall state3

/-- The symbol scratch `symbol_t` (sizes of the fixed buffers are immaterial
to the properties below; strings are byte lists). -/
structure Symbol_t where
  class_name : List Nat
  method_name : List Nat
  path : List Nat
deriving DecidableEq

/-- The first four bytes of the NUL-terminated buffer that holds the byte
string `s` after the buffer was zeroed: the string's bytes, then its NUL
terminator, then zero fill.  The source compares these four bytes as one
`s32` (lines 322-326); on a little-endian target that integer comparison
coincides with bytewise comparison of the four bytes. -/
def first4 (s : List Nat) : List Nat := (s ++ [0, 0, 0, 0]).take 4

/-- `char self_str[4] = {'s','e','l','f'}` (line 323): no NUL terminator. -/
def self_str : List Nat := [115, 101, 108, 102]

/-- `char cls_str[4] = {'c','l','s','\0'}` (line 324): the NUL participates
in the 4-byte comparison. -/
def cls_str : List Nat := [99, 108, 115, 0]

/-- `bpf_probe_read_user_str` into the `method_name` buffer: on success the
string overwrites the buffer; on failure the (zero-initialised) buffer is
left as it was. -/
def setMethodName (symbol : Symbol_t) (x : Option (List Nat)) : Symbol_t :=
  match x with
  | some s => { symbol with method_name := s }
  | none => symbol

def setClassName (symbol : Symbol_t) (x : Option (List Nat)) : Symbol_t :=
  match x with
  | some s => { symbol with class_name := s }
  | none => symbol

def setPath (symbol : Symbol_t) (x : Option (List Nat)) : Symbol_t :=
  match x with
  | some s => { symbol with path := s }
  | none => symbol

/-- GDB: `((PyTupleObject*)$frame->f_code->co_varnames)->ob_item[0]` and its
string data (lines 317-320): the address holding the first argument's name. -/
def firstArgNameAddr (offsets : PythonVersionOffsets) (mem : Mem) (code_ptr : Nat) : Int :=
  ((probeReadWord mem
      (((probeReadWord mem ((code_ptr : Int) + offsets.py_code_object.co_varnames)).2 : Int) +
        offsets.py_tuple_object.ob_item)).2 : Int) + offsets.py_string.data

/-- GDB: `$frame->f_localsplus[0]->ob_type->tp_name` (lines 330-337): the
`tp_name` pointer for an instance (`self`), with the `ob_type` hop. -/
def instanceTpNamePtr (offsets : PythonVersionOffsets) (mem : Mem) (cur_frame : Nat) : Int :=
  ((probeReadWord mem
      (((probeReadWord mem
          (((probeReadWord mem ((cur_frame : Int) + offsets.py_frame_object.f_localsplus)).2 : Int) +
            offsets.py_object.ob_type)).2 : Int) +
        offsets.py_type_object.tp_name)).2 : Int)

/-- The `cls` variant of the same chain: no `ob_type` hop (line 332's `if`
is skipped). -/
def clsTpNamePtr (offsets : PythonVersionOffsets) (mem : Mem) (cur_frame : Nat) : Int :=
  ((probeReadWord mem
      (((probeReadWord mem ((cur_frame : Int) + offsets.py_frame_object.f_localsplus)).2 : Int) +
        offsets.py_type_object.tp_name)).2 : Int)

/-- `read_symbol` (lines 307-354): best-effort symbolization of one frame.
Every read is probe-style; a failed scalar read zero-fills its destination
and a failed string read leaves the (already zeroed) buffer unchanged.
Returns the filled `symbol_t` and `co_firstlineno`. -/
def read_symbol (offsets : PythonVersionOffsets) (mem : Mem) (cur_frame code_ptr : Nat) (symbol : Symbol_t) :
    Symbol_t × Nat :=
  let symbol := setMethodName symbol (mem.str (firstArgNameAddr offsets mem code_ptr))
  let first_self := first4 symbol.method_name = self_str
  let first_cls := first4 symbol.method_name = cls_str
  let symbol :=
    if first_self ∨ first_cls then
      setClassName symbol
        (mem.str (if first_self then instanceTpNamePtr offsets mem cur_frame
                  else clsTpNamePtr offsets mem cur_frame))
    else symbol
  let symbol :=
    setPath symbol
      (mem.str (((probeReadWord mem ((code_ptr : Int) + offsets.py_code_object.co_filename)).2 : Int) +
        offsets.py_string.data))
  let symbol :=
    setMethodName symbol
      (mem.str (((probeReadWord mem ((code_ptr : Int) + offsets.py_code_object.co_name)).2 : Int) +
        offsets.py_string.data))
  (symbol, (probeReadU32 mem ((code_ptr : Int) + offsets.py_code_object.co_firstlineno)).2)

theorem setMethodName_class_name (symbol : Symbol_t) (x : Option (List Nat)) :
    (setMethodName symbol x).class_name = symbol.class_name := by
  cases x <;> rfl

theorem setMethodName_method_name (symbol : Symbol_t) (x : Option (List Nat)) :
    (setMethodName symbol x).method_name = x.getD symbol.method_name := by
  cases x <;> rfl

theorem setClassName_class_name (symbol : Symbol_t) (x : Option (List Nat)) :
    (setClassName symbol x).class_name = x.getD symbol.class_name := by
  cases x <;> rfl

theorem setPath_class_name (symbol : Symbol_t) (x : Option (List Nat)) :
    (setPath symbol x).class_name = symbol.class_name := by
  cases x <;> rfl

/-- Modelled from the spec: the frame-owner tag `FRAME_OWNED_BY_CSTACK`
from the missing `pyperf.h` (CPython's value); the concrete value is
immaterial to the properties below. -/
def FRAME_OWNED_BY_CSTACK : Nat := 3

/-- Modelled from the spec: `PYTHON_STACK_FRAMES_PER_PROG` and
`PYTHON_STACK_PROG_CNT` are compile-time constants in the missing
`pyperf.h`; the spec fixes `MAX_STACK_DEPTH` as their product. -/
structure WalkerCfg where
  framesPerProg : Nat
  progCnt : Nat
deriving DecidableEq

/-- `MAX_STACK_DEPTH = PYTHON_STACK_FRAMES_PER_PROG * PYTHON_STACK_PROG_CNT`. -/
def WalkerCfg.maxStackDepth (cfg : WalkerCfg) : Nat := cfg.framesPerProg * cfg.progCnt

/-- Lines 423-428: append one frame encoding, guarded by
`cur_len < MAX_STACK_DEPTH` (the `cur_len >= 0` half of the source's guard
is vacuous for an unsigned length). -/
def pushFrame (maxDepth : Nat) (s : Sample) (e : Nat) : Sample :=
  if s.stack.length < maxDepth then { s with stack := s.stack ++ [e] } else s

def pushList (maxDepth : Nat) (s : Sample) (es : List Nat) : Sample :=
  es.foldl (pushFrame maxDepth) s

/-- The frame encoding `(lineno << 32) | symbol_id` (line 426) computed for
the frame at address `a`, reading `f_code` and symbolizing as the walker
body does. -/
def frameEnc (offsets : PythonVersionOffsets) (mem : Mem) (gsi : Symbol_t → Nat) (a : Nat) : Nat :=
  let code := (probeReadWord mem ((a : Int) + offsets.py_frame_object.f_code)).2
  let sl := read_symbol offsets mem a code ⟨[], [], []⟩
  (sl.2 <<< 32) ||| gsi sl.1

/-- Outcome of one iteration of the walker's `#pragma unroll` loop:
`brk` is `break` (control continues at line 437), `completeJump` is
`goto complete`, `next` continues with the following iteration. -/
inductive IterOut where
  | brk (st : State)
  | completeJump (st : State)
  | next (st : State)
deriving DecidableEq

def IterOut.state : IterOut → State
  | .brk st => st
  | .completeJump st => st
  | .next st => st

/-- Lines 384-392: when the version has the `py_interpreter_frame.owner`
field, read the owner tag of the current frame; a frame owned by the C
stack is skipped by following `f_back` once; a zero pointer afterwards
(zero `f_back` or failed read, which zero-fills) breaks the loop (`none`). -/
def skipCStackFrame (offsets : PythonVersionOffsets) (mem : Mem) (curr_frame_ptr : Nat) : Option Nat :=
  if offsets.py_interpreter_frame.owner ≠ -1 then
    if (probeReadU32 mem ((curr_frame_ptr : Int) + offsets.py_interpreter_frame.owner)).2 =
        FRAME_OWNED_BY_CSTACK then
      if (probeReadWord mem ((curr_frame_ptr : Int) + offsets.py_frame_object.f_back)).2 = 0 then none
      else some (probeReadWord mem ((curr_frame_ptr : Int) + offsets.py_frame_object.f_back)).2
    else if curr_frame_ptr = 0 then none else some curr_frame_ptr
  else some curr_frame_ptr

/-- The post-symbolization tail of one walker iteration: the guarded append
of `(lineno << 32) | symbol_id` (lines 422-428, see `pushFrame` and
`frameEnc`) followed by the advance of `state->frame_ptr` along `f_back`
(line 431). -/
def advanceState (offsets : PythonVersionOffsets) (mem : Mem) (gsi : Symbol_t → Nat) (maxDepth : Nat)
    (st : State) (curr : Nat) : State :=
  { st with sample := pushFrame maxDepth st.sample (frameEnc offsets mem gsi curr)
            frame_ptr := (probeReadWord mem ((curr : Int) + offsets.py_frame_object.f_back)).2 }

/-- One iteration of the walker loop (lines 377-436).  `gsi` is the
external symbol-interning collaborator `get_symbol_id` (spec §4.5, in the
missing `shared.h`), treated as a black box. -/
def walkIter (offsets : PythonVersionOffsets) (mem : Mem) (gsi : Symbol_t → Nat) (maxDepth : Nat) (st : State) :
    IterOut :=
  if st.frame_ptr = 0 then .brk st
  else
    match skipCStackFrame offsets mem st.frame_ptr with
    | none => .brk st
    | some curr =>
      if (probeReadWord mem ((curr : Int) + offsets.py_frame_object.f_code)).1 ≠ 0 then .brk st
      else if (probeReadWord mem ((curr : Int) + offsets.py_frame_object.f_code)).2 = 0 then .brk st
      else if (probeReadWord mem ((curr : Int) + offsets.py_frame_object.f_back)).2 = 0 then
        .completeJump (advanceState offsets mem gsi maxDepth st curr)
      else .next (advanceState offsets mem gsi maxDepth st curr)

/-- Loop exit: `fell` covers both `break` and exhausting the
`PYTHON_STACK_FRAMES_PER_PROG` iterations (control reaches line 437);
`completed` is `goto complete`. -/
inductive LoopOut where
  | fell (st : State)
  | completed (st : State)
deriving DecidableEq

def walkLoop (offsets : PythonVersionOffsets) (mem : Mem) (gsi : Symbol_t → Nat) (maxDepth : Nat) :
    Nat → State → LoopOut
  | 0, st => .fell st
  | n + 1, st =>
    match walkIter offsets mem gsi maxDepth st with
    | .brk st' => .fell st'
    | .completeJump st' => .completed st'
    | .next st' => walkLoop offsets mem gsi maxDepth n st'

/-- Outcome of one P2 invocation: re-tail-call into the walker, or submit
(hash, publish under the hash, aggregate) the final sample. -/
inductive InvOut where
  | tailCall (st : State)
  | submit (s : Sample)
deriving DecidableEq

/-- One invocation of P2 `walk_python_stack` (lines 364-482): bump the
tail-call counter, run the bounded loop, then either tail-call again while
the budget allows, mark `truncated`, or (via `goto complete`) mark
`complete`.  The tail call at line 442 is modelled as always succeeding
(the program array is populated at load time). -/
def walk_python_stack (cfg : WalkerCfg) (offsets : PythonVersionOffsets) (mem : Mem) (gsi : Symbol_t → Nat)
    (st : State) : InvOut :=
  match walkLoop offsets mem gsi cfg.maxStackDepth cfg.framesPerProg
      { st with stack_walker_prog_call_count := st.stack_walker_prog_call_count + 1 } with
  | .completed st' => .submit { st'.sample with stack_status := .complete }
  | .fell st' =>
    if st'.stack_walker_prog_call_count < cfg.progCnt then .tailCall st'
    else .submit { st'.sample with stack_status := .truncated }

/-- The chain of P2 tail calls, fuelled; `cfg.progCnt` invocations always
suffice because the counter grows by one per invocation and the tail call
is guarded by `stack_walker_prog_call_count < PYTHON_STACK_PROG_CNT`. -/
def walkChain (cfg : WalkerCfg) (offsets : PythonVersionOffsets) (mem : Mem) (gsi : Symbol_t → Nat) :
    Nat → State → Option Sample
  | 0, _ => none
  | fuel + 1, st =>
    match walk_python_stack cfg offsets mem gsi st with
    | .submit s => some s
    | .tailCall st' => walkChain cfg offsets mem gsi fuel st'

def sampleStatus : Option Sample → Option StackStatus
  | some s => some s.stack_status
  | none => none

def sampleLen : Option Sample → Option Nat
  | some s => some s.stack.length
  | none => none

/-!  ## Concrete fixtures used by witnesses and counterexamples -/

/-- A version-offsets record without the `py_interpreter_frame.owner` field
(pre-3.11 layout, `owner = -1`); concrete values for evaluation. -/
def offsNoOwner : PythonVersionOffsets :=
  { py_object := ⟨4⟩
    py_string := ⟨4⟩
    py_type_object := ⟨4⟩
    py_thread_state := { frame := 24, cframe := 32, thread_id := 8 }
    py_cframe := ⟨0⟩
    py_code_object := { co_filename := 40, co_name := 44, co_varnames := 48, co_firstlineno := 52 }
    py_frame_object := { f_back := 16, f_code := 8, f_localsplus := 60 }
    py_tuple_object := ⟨4⟩
    py_interpreter_frame := ⟨-1⟩ }

/-- The same record with the `owner` field present (3.11+ layout). -/
def offsOwner : PythonVersionOffsets :=
  { offsNoOwner with py_interpreter_frame := ⟨0⟩ }

/-!  ## C5: TLS pthread-key slot computation -/

/-- C5: `tls_read` computes the pthread-key slot address exactly per the
libc/arch table: for glibc the result is the single user-memory read at
`tls_base (± pthread_size on aarch64) + pthread_block +
key*pthread_key_data_size + pthread_key_data`; for musl one additional
dereference of the intermediate pointer at `tls_base (± …) + pthread_block`
precedes adding `key*pthread_key_data_size`, and the final address is read
to obtain `PyThreadState*`; for an unknown libc implementation `tls_read`
returns an error and performs no memory read (the result is `none`
uniformly in the memory). -/
theorem c5_tls_read_layout (arch : Arch) (maps : Maps) (mem : Mem) (tls_base : Int)
    (ii : InterpreterInfo) (lo : LibcOffsets) :
    (ii.libc_implementation = LIBC_IMPLEMENTATION_GLIBC →
      maps.glibc_offsets ii.libc_offset_index = some lo →
      tls_read arch maps mem tls_base ii = mem.word (spec_glibc_slot_addr arch lo tls_base ii.tls_key)) ∧
    (ii.libc_implementation = LIBC_IMPLEMENTATION_MUSL →
      maps.musl_offsets ii.libc_offset_index = some lo →
      tls_read arch maps mem tls_base ii = spec_musl_read arch lo mem tls_base ii.tls_key) ∧
    (ii.libc_implementation ≠ LIBC_IMPLEMENTATION_GLIBC →
      ii.libc_implementation ≠ LIBC_IMPLEMENTATION_MUSL →
      tls_read arch maps mem tls_base ii = none) := by
  refine ⟨fun h1 h2 => ?_, fun h1 h2 => ?_, fun h1 h2 => ?_⟩
  · simp only [tls_read, h1, if_pos rfl, h2]
    cases arch <;> rfl
  · have hne : ii.libc_implementation ≠ LIBC_IMPLEMENTATION_GLIBC := by
      rw [h1]; decide
    simp only [tls_read, if_neg hne, h1, if_pos rfl, h2]
    cases arch <;> rfl
  · simp only [tls_read, if_neg h1, if_neg h2]

def c5Lo : LibcOffsets := ⟨2400, 1296, 8, 16⟩

def c5MapsG : Maps :=
  { pid_to_interpreter_info := fun _ => none
    version_specific_offsets := fun _ => none
    glibc_offsets := fun i => if i = 0 then some c5Lo else none
    musl_offsets := fun _ => none }

def c5MemG : Mem := ⟨fun a => if a = 11336 then some 424242 else none, fun _ => none⟩

def c5Ii : InterpreterInfo :=
  { thread_state_addr := 0, use_tls := true, tls_key := 2, py_version_index := 0
    libc_implementation := LIBC_IMPLEMENTATION_GLIBC, libc_offset_index := 0 }

/-- Witness for C5: the glibc/x86-64 case at concrete inputs. -/
theorem c5_tls_read_layout_witness :
    tls_read .x86_64 c5MapsG c5MemG 10000 c5Ii = c5MemG.word (spec_glibc_slot_addr .x86_64 c5Lo 10000 2) :=
  (c5_tls_read_layout .x86_64 c5MapsG c5MemG 10000 c5Ii c5Lo).1 rfl rfl

/-!  ## Helper lemmas about P1 -/

theorem directThreadState_ok_fields {mem : Mem} {ii : InterpreterInfo} {st st' : State}
    (h : directThreadState mem ii st = .ok st') :
    st'.sample = st.sample ∧ st'.stack_walker_prog_call_count = st.stack_walker_prog_call_count ∧
      st'.frame_ptr = st.frame_ptr := by
  unfold directThreadState at h
  split at h
  · split at h
    · simp at h
    · rw [Except.ok.injEq] at h
      subst h
      exact ⟨rfl, rfl, rfl⟩
  · rw [Except.ok.injEq] at h
    subst h
    exact ⟨rfl, rfl, rfl⟩

theorem tlsThreadState_ok_fields {arch : Arch} {maps : Maps} {mem : Mem} {tls_base : Int}
    {ii : InterpreterInfo} {st st' : State}
    (h : tlsThreadState arch maps mem tls_base ii st = .ok st') :
    st'.sample = st.sample ∧ st'.stack_walker_prog_call_count = st.stack_walker_prog_call_count ∧
      st'.frame_ptr = st.frame_ptr := by
  unfold tlsThreadState at h
  split at h
  · split at h
    · simp at h
    · split at h
      · simp at h
      · rw [Except.ok.injEq] at h
        subst h
        exact ⟨rfl, rfl, rfl⟩
  · rw [Except.ok.injEq] at h
    subst h
    exact ⟨rfl, rfl, rfl⟩

theorem resolveThreadState_ok_fields {arch : Arch} {maps : Maps} {mem : Mem} {tls_base : Int}
    {ii : InterpreterInfo} {st st' : State}
    (h : resolveThreadState arch maps mem tls_base ii st = .ok st') :
    st'.sample = st.sample ∧ st'.stack_walker_prog_call_count = st.stack_walker_prog_call_count ∧
      st'.frame_ptr = st.frame_ptr := by
  unfold resolveThreadState at h
  split at h
  · simp_all
  next st1 heq =>
    obtain ⟨a, b, c⟩ := directThreadState_ok_fields heq
    obtain ⟨d, e', f⟩ := tlsThreadState_ok_fields h
    exact ⟨d.trans a, e'.trans b, f.trans c⟩

theorem fetchTopFrame_ok_fields {mem : Mem} {offsets : PythonVersionOffsets} {st st' : State}
    (h : fetchTopFrame mem offsets st = .ok st') :
    st'.sample = st.sample ∧ st'.stack_walker_prog_call_count = st.stack_walker_prog_call_count ∧
      st'.thread_state = st.thread_state := by
  unfold fetchTopFrame at h
  split at h
  · split at h
    · simp at h
    · rw [Except.ok.injEq] at h
      subst h
      exact ⟨rfl, rfl, rfl⟩
  · split at h
    · simp at h
    · split at h
      · simp at h
      · rw [Except.ok.injEq] at h
        subst h
        exact ⟨rfl, rfl, rfl⟩

/-!  ## C1: handling of a zero resolved thread state -/

def c1Ii : InterpreterInfo :=
  { thread_state_addr := 100, use_tls := false, tls_key := 0, py_version_index := 0
    libc_implementation := LIBC_IMPLEMENTATION_GLIBC, libc_offset_index := 0 }

def c1Maps : Maps :=
  { pid_to_interpreter_info := fun p => if p = 1 then some c1Ii else none
    version_specific_offsets := fun i => if i = 0 then some offsNoOwner else none
    glibc_offsets := fun _ => none
    musl_offsets := fun _ => none }

def c1Mem : Mem := ⟨fun a => if a = 100 then some 0 else none, fun _ => none⟩

/-- Counterexample to C1: on the direct `thread_state_addr` path
(`use_tls` unset) the dereference yields a zero thread state, yet the
published error is the one for the subsequent failed `thread_id` read and
not `"thread_state was NULL"`: the zero check (line 238) lives inside the
`use_tls` block only. -/
theorem c1_counterexample :
    unwind_python_stack .x86_64 c1Maps c1Mem 0 1 2 =
        .submitWithoutUnwinding "failed read of thread_state->thread_id" ∧
      unwind_python_stack .x86_64 c1Maps c1Mem 0 1 2 ≠
        .submitWithoutUnwinding "thread_state was NULL" := by
  constructor
  · rfl
  · decide

/-- C1 (amended): the zero check for the resolved thread state runs only on
the TLS path.  Whenever `use_tls` is set, the preceding direct read (if
`thread_state_addr ≠ 0`) succeeds, and TLS resolution yields a zero
`PyThreadState*`, P1 publishes the error sample `"thread_state was NULL"`,
performs no frame walking and publishes no stack under a hash (the outcome
is `submitWithoutUnwinding`, not a tail call into the walker).  A zero
thread state obtained from `thread_state_addr` alone is not checked and
falls through to the `thread_id` read (see `c1_counterexample`). -/
theorem c1_thread_state_null_only_on_tls_path
    (arch : Arch) (maps : Maps) (mem : Mem) (tls_base : Int) (pid tid : Nat) (ii : InterpreterInfo)
    (hpid : pid ≠ 0) (hii : maps.pid_to_interpreter_info pid = some ii)
    (htls : ii.use_tls = true)
    (hdirect : ii.thread_state_addr = 0 ∨ mem.word (ii.thread_state_addr : Int) ≠ none)
    (hzero : tls_read arch maps mem tls_base ii = some 0) :
    unwind_python_stack arch maps mem tls_base pid tid =
      .submitWithoutUnwinding "thread_state was NULL" := by
  have hres : ∀ st : State, resolveThreadState arch maps mem tls_base ii st = .error "thread_state was NULL" := by
    intro st
    unfold resolveThreadState directThreadState tlsThreadState
    rcases hdirect with h0 | hr
    · simp [h0, htls, hzero]
    · cases hm : mem.word (ii.thread_state_addr : Int) with
      | none => exact absurd hm hr
      | some v =>
        by_cases ha : ii.thread_state_addr = 0
        · simp [ha, htls, hzero]
        · simp [ha, hm, htls, hzero]
  unfold unwind_python_stack
  simp [hpid, hii, hres]

def c1wIi : InterpreterInfo :=
  { thread_state_addr := 0, use_tls := true, tls_key := 0, py_version_index := 0
    libc_implementation := LIBC_IMPLEMENTATION_GLIBC, libc_offset_index := 0 }

def c1wLo : LibcOffsets := ⟨0, 0, 0, 0⟩

def c1wMaps : Maps :=
  { pid_to_interpreter_info := fun p => if p = 1 then some c1wIi else none
    version_specific_offsets := fun _ => none
    glibc_offsets := fun i => if i = 0 then some c1wLo else none
    musl_offsets := fun _ => none }

def c1wMem : Mem := ⟨fun a => if a = 500 then some 0 else none, fun _ => none⟩

/-- Witness for the amended C1 at a concrete TLS configuration. -/
theorem c1_thread_state_null_only_on_tls_path_witness :
    unwind_python_stack .x86_64 c1wMaps c1wMem 500 1 2 =
      .submitWithoutUnwinding "thread_state was NULL" :=
  c1_thread_state_null_only_on_tls_path .x86_64 c1wMaps c1wMem 500 1 2 c1wIi
    (by decide) rfl rfl (Or.inl rfl) rfl

/-!  ## C2: where the thread state comes from -/

/-- Any tail call out of P1 went through a successful `resolveThreadState`,
and the later stages do not change `thread_state`. -/
theorem unwind_tailCall_thread_state
    {arch : Arch} {maps : Maps} {mem : Mem} {tls_base : Int} {pid tid : Nat} {ii : InterpreterInfo} {st : State}
    (hii : maps.pid_to_interpreter_info pid = some ii)
    (h : unwind_python_stack arch maps mem tls_base pid tid = .tailCall st) :
    ∃ st1, resolveThreadState arch maps mem tls_base ii (initState ii pid tid) = .ok st1 ∧
      st.thread_state = st1.thread_state := by
  unfold unwind_python_stack at h
  split at h
  · simp at h
  · split at h
    · simp at h
    next ii' hii' =>
      rw [hii] at hii'
      cases hii'
      split at h
      · simp at h
      next st1 heq1 =>
        split at h
        · simp at h
        next offsets hoff =>
          split at h
          · simp at h
          · split at h
            · simp at h
            next st3 heq3 =>
              split at h
              · simp at h
              · rw [P1Result.tailCall.injEq] at h
                subst h
                exact ⟨st1, heq1, (fetchTopFrame_ok_fields heq3).2.2⟩

theorem resolveThreadState_direct_only {arch : Arch} {maps : Maps} {mem : Mem} {tls_base : Int}
    {ii : InterpreterInfo} {v : Nat} (st : State)
    (htls : ii.use_tls = false) (ha : ii.thread_state_addr ≠ 0)
    (hv : mem.word (ii.thread_state_addr : Int) = some v) :
    resolveThreadState arch maps mem tls_base ii st = .ok { st with thread_state := v } := by
  unfold resolveThreadState directThreadState tlsThreadState
  simp [ha, hv, htls]

theorem resolveThreadState_tls_value {arch : Arch} {maps : Maps} {mem : Mem} {tls_base : Int}
    {ii : InterpreterInfo} {w : Nat} {st st' : State}
    (htls : ii.use_tls = true) (hw : tls_read arch maps mem tls_base ii = some w)
    (h : resolveThreadState arch maps mem tls_base ii st = .ok st') :
    st'.thread_state = w := by
  unfold resolveThreadState at h
  split at h
  · simp at h
  · unfold tlsThreadState at h
    rw [htls] at h
    rw [hw] at h
    simp only [if_true] at h
    split at h
    · simp at h
    · rw [Except.ok.injEq] at h
      subst h
      rfl

def c2Ii : InterpreterInfo :=
  { thread_state_addr := 100, use_tls := true, tls_key := 0, py_version_index := 0
    libc_implementation := LIBC_IMPLEMENTATION_GLIBC, libc_offset_index := 0 }

def c2Maps : Maps :=
  { pid_to_interpreter_info := fun p => if p = 1 then some c2Ii else none
    version_specific_offsets := fun i => if i = 0 then some offsNoOwner else none
    glibc_offsets := fun _ => none
    musl_offsets := fun _ => none }

def c2Mem : Mem := ⟨fun a => if a = 100 then some 7 else none, fun _ => none⟩

/-- Counterexample to C2: with both `thread_state_addr ≠ 0` and `use_tls`
set, the direct dereference succeeds (the word at address 100 is 7), yet
TLS resolution still runs — its failure is the published outcome, which
C2's "TLS resolution is not performed" forbids.  The two `if`s at lines
210 and 221 are not chained by `else`. -/
theorem c2_counterexample :
    c2Ii.thread_state_addr ≠ 0 ∧ c2Ii.use_tls = true ∧
      c2Mem.word (c2Ii.thread_state_addr : Int) = some 7 ∧
      unwind_python_stack .x86_64 c2Maps c2Mem 0 1 2 = .submitWithoutUnwinding "failed read of TLS" := by
  refine ⟨by decide, rfl, by decide, ?_⟩
  rfl

/-- C2 (amended): the direct dereference of `thread_state_addr` runs when
that address is nonzero, and TLS resolution runs whenever `use_tls` is set
— regardless of `thread_state_addr`; when both run, the TLS result
overwrites the directly read one.  Concretely: if `use_tls` is unset the
walker is entered with the directly read value, and if `use_tls` is set it
is entered with the TLS-resolved value. -/
theorem c2_thread_state_sources
    (arch : Arch) (maps : Maps) (mem : Mem) (tls_base : Int) (pid tid : Nat) (ii : InterpreterInfo)
    (hii : maps.pid_to_interpreter_info pid = some ii) :
    (∀ v st, ii.use_tls = false → ii.thread_state_addr ≠ 0 →
      mem.word (ii.thread_state_addr : Int) = some v →
      unwind_python_stack arch maps mem tls_base pid tid = .tailCall st → st.thread_state = v) ∧
    (∀ w st, ii.use_tls = true →
      tls_read arch maps mem tls_base ii = some w →
      unwind_python_stack arch maps mem tls_base pid tid = .tailCall st → st.thread_state = w) := by
  constructor
  · intro v st htls ha hv h
    obtain ⟨st1, heq, hpres⟩ := unwind_tailCall_thread_state hii h
    rw [resolveThreadState_direct_only (initState ii pid tid) htls ha hv] at heq
    rw [Except.ok.injEq] at heq
    rw [hpres, ← heq]
  · intro w st htls hw h
    obtain ⟨st1, heq, hpres⟩ := unwind_tailCall_thread_state hii h
    rw [hpres]
    exact resolveThreadState_tls_value htls hw heq

def c2wIi : InterpreterInfo :=
  { thread_state_addr := 100, use_tls := true, tls_key := 0, py_version_index := 0
    libc_implementation := LIBC_IMPLEMENTATION_GLIBC, libc_offset_index := 0 }

def c2wLo : LibcOffsets := ⟨0, 0, 0, 0⟩

def c2wMaps : Maps :=
  { pid_to_interpreter_info := fun p => if p = 1 then some c2wIi else none
    version_specific_offsets := fun i => if i = 0 then some offsNoOwner else none
    glibc_offsets := fun i => if i = 0 then some c2wLo else none
    musl_offsets := fun _ => none }

/-- Direct read at 100 yields 7, the TLS slot at `tls_base = 600` yields
900, `thread_id` at 908 and the top frame pointer at 924. -/
def c2wMem : Mem :=
  ⟨fun a =>
      if a = 100 then some 7
      else if a = 600 then some 900
      else if a = 908 then some 11
      else if a = 924 then some 50
      else none,
    fun _ => none⟩

def c2wState : State :=
  { interpreter_info := c2wIi, thread_state := 900, current_pthread := 11, frame_ptr := 50
    stack_walker_prog_call_count := 0, sample := ⟨1, 2, [], .complete⟩ }

/-- Witness for the amended C2: both sources are configured; the walker is
entered with the TLS-resolved value 900, not the directly read 7. -/
theorem c2_thread_state_sources_witness : c2wState.thread_state = 900 :=
  (c2_thread_state_sources .x86_64 c2wMaps c2wMem 600 1 2 c2wIi rfl).2 900 c2wState rfl rfl (by decide)

/-!  ## C4: missing version-offsets entry -/

def c4Ii : InterpreterInfo :=
  { thread_state_addr := 100, use_tls := false, tls_key := 0, py_version_index := 5
    libc_implementation := LIBC_IMPLEMENTATION_GLIBC, libc_offset_index := 0 }

def c4Maps : Maps :=
  { pid_to_interpreter_info := fun p => if p = 1 then some c4Ii else none
    version_specific_offsets := fun _ => none
    glibc_offsets := fun _ => none
    musl_offsets := fun _ => none }

def c4Mem : Mem := ⟨fun a => if a = 100 then some 7 else none, fun _ => none⟩

/-- Counterexample to C4: with no entry in `version_specific_offsets` for
the process's `py_version_index`, P1 returns silently (`GET_OFFSETS` is a
bare `return 0`): no error sample with a descriptive string is published. -/
theorem c4_counterexample :
    c4Maps.version_specific_offsets c4Ii.py_version_index = none ∧
      unwind_python_stack .x86_64 c4Maps c4Mem 0 1 2 = .silentReturn := by
  exact ⟨rfl, rfl⟩

/-- C4 (amended): when no offsets entry exists for `py_version_index`
(reached after a successful thread-state resolution), P1 silently returns:
it publishes neither an error sample nor a stack. -/
theorem c4_missing_offsets_silent
    (arch : Arch) (maps : Maps) (mem : Mem) (tls_base : Int) (pid tid : Nat)
    (ii : InterpreterInfo) (st1 : State)
    (hpid : pid ≠ 0) (hii : maps.pid_to_interpreter_info pid = some ii)
    (hres : resolveThreadState arch maps mem tls_base ii (initState ii pid tid) = .ok st1)
    (hoff : maps.version_specific_offsets ii.py_version_index = none) :
    unwind_python_stack arch maps mem tls_base pid tid = .silentReturn := by
  unfold unwind_python_stack
  simp [hpid, hii, hres, hoff]

/-- Witness for the amended C4 at the counterexample's concrete input. -/
theorem c4_missing_offsets_silent_witness :
    unwind_python_stack .x86_64 c4Maps c4Mem 0 1 2 = .silentReturn :=
  c4_missing_offsets_silent .x86_64 c4Maps c4Mem 0 1 2 c4Ii
    { initState c4Ii 1 2 with thread_state := 7 } (by decide) rfl rfl rfl

/-!  ## C6: the stack-length invariant -/

def LoopOut.state : LoopOut → State
  | .fell st => st
  | .completed st => st

theorem pushFrame_length_le {d : Nat} {s : Sample} {e : Nat} (h : s.stack.length ≤ d) :
    (pushFrame d s e).stack.length ≤ d := by
  unfold pushFrame
  split
  · simpa using Nat.succ_le_of_lt ‹_›
  · exact h

theorem walkIter_length_le {offsets : PythonVersionOffsets} {mem : Mem} {gsi : Symbol_t → Nat} {d : Nat}
    {st : State} (h : st.sample.stack.length ≤ d) :
    ((walkIter offsets mem gsi d st).state).sample.stack.length ≤ d := by
  unfold walkIter
  split
  · exact h
  · split
    · exact h
    · split
      · exact h
      · split
        · exact h
        · split
          · exact pushFrame_length_le h
          · exact pushFrame_length_le h

theorem walkLoop_length_le (offsets : PythonVersionOffsets) (mem : Mem) (gsi : Symbol_t → Nat) (d : Nat)
    (n : Nat) : ∀ st : State, st.sample.stack.length ≤ d →
    ((walkLoop offsets mem gsi d n st).state).sample.stack.length ≤ d := by
  induction n with
  | zero => intro st h; exact h
  | succ n ih =>
    intro st h
    have hit := @walkIter_length_le offsets mem gsi d st h
    unfold walkLoop
    cases hIter : walkIter offsets mem gsi d st with
    | brk st' =>
      rw [hIter] at hit
      simpa using hit
    | completeJump st' =>
      rw [hIter] at hit
      simpa using hit
    | next st' =>
      rw [hIter] at hit
      simpa using ih st' hit

theorem unwind_tailCall_stack_nil {arch : Arch} {maps : Maps} {mem : Mem} {tls_base : Int}
    {pid tid : Nat} {st : State}
    (h : unwind_python_stack arch maps mem tls_base pid tid = .tailCall st) :
    st.sample.stack = [] := by
  unfold unwind_python_stack at h
  split at h
  · simp at h
  · split at h
    · simp at h
    next ii' hii' =>
      split at h
      · simp at h
      next st1 heq1 =>
        split at h
        · simp at h
        next offsets hoff =>
          split at h
          · simp at h
          · split at h
            · simp at h
            next st3 heq3 =>
              split at h
              · simp at h
              · rw [P1Result.tailCall.injEq] at h
                subst h
                have h1 := (resolveThreadState_ok_fields heq1).1
                have h3 := (fetchTopFrame_ok_fields heq3).1
                rw [h3]
                show st1.sample.stack = []
                rw [h1]
                rfl

/-- C6: `sample.stack.len ≤ MAX_STACK_DEPTH` holds in every state reachable
across P1 and any chain of P2 tail calls: P1 hands the walker a state with
an empty stack, and each walker invocation — whose only growth point is the
append guarded by `cur_len < MAX_STACK_DEPTH` — preserves the bound both
into its next tail call and into the submitted sample. -/
theorem c6_stack_len_bounded :
    (∀ (arch : Arch) (maps : Maps) (mem : Mem) (tls_base : Int) (pid tid : Nat) (st : State),
      unwind_python_stack arch maps mem tls_base pid tid = .tailCall st →
      st.sample.stack.length = 0) ∧
    (∀ (cfg : WalkerCfg) (offsets : PythonVersionOffsets) (mem : Mem) (gsi : Symbol_t → Nat) (st st' : State),
      st.sample.stack.length ≤ cfg.maxStackDepth →
      walk_python_stack cfg offsets mem gsi st = .tailCall st' →
      st'.sample.stack.length ≤ cfg.maxStackDepth) ∧
    (∀ (cfg : WalkerCfg) (offsets : PythonVersionOffsets) (mem : Mem) (gsi : Symbol_t → Nat) (st : State)
      (s : Sample),
      st.sample.stack.length ≤ cfg.maxStackDepth →
      walk_python_stack cfg offsets mem gsi st = .submit s →
      s.stack.length ≤ cfg.maxStackDepth) := by
  refine ⟨fun arch maps mem tls_base pid tid st h => by rw [unwind_tailCall_stack_nil h]; rfl, ?_, ?_⟩
  · intro cfg offsets mem gsi st st' hlen h
    unfold walk_python_stack at h
    have hl := walkLoop_length_le offsets mem gsi cfg.maxStackDepth cfg.framesPerProg
      { st with stack_walker_prog_call_count := st.stack_walker_prog_call_count + 1 } hlen
    split at h
    · simp at h
    next st1 heq =>
      rw [heq] at hl
      simp only [LoopOut.state] at hl
      split at h
      · rw [InvOut.tailCall.injEq] at h
        subst h
        exact hl
      · simp at h
  · intro cfg offsets mem gsi st s hlen h
    unfold walk_python_stack at h
    have hl := walkLoop_length_le offsets mem gsi cfg.maxStackDepth cfg.framesPerProg
      { st with stack_walker_prog_call_count := st.stack_walker_prog_call_count + 1 } hlen
    split at h
    next st1 heq =>
      rw [heq] at hl
      simp only [LoopOut.state] at hl
      rw [InvOut.submit.injEq] at h
      subst h
      exact hl
    next st1 heq =>
      rw [heq] at hl
      simp only [LoopOut.state] at hl
      split at h
      · simp at h
      · rw [InvOut.submit.injEq] at h
        subst h
        exact hl

def c6wMem : Mem := ⟨fun _ => none, fun _ => none⟩

/-- Witness for C6: the P1 hand-off bound at a concrete input, and the
submit bound for one concrete walker invocation. -/
theorem c6_stack_len_bounded_witness :
    c2wState.sample.stack.length = 0 ∧ (Sample.mk 1 2 [] .truncated).stack.length ≤ 1 := by
  constructor
  · exact c6_stack_len_bounded.1 .x86_64 c2wMaps c2wMem 600 1 2 c2wState (by decide)
  · exact c6_stack_len_bounded.2.2 ⟨1, 1⟩ offsNoOwner c6wMem (fun _ => 0) c2wState ⟨1, 2, [], .truncated⟩
      (by decide) (by decide)

/-!  ## C3: probe-read failure during frame walking -/

theorem walkIter_brk_of_fcode_fail {offsets : PythonVersionOffsets} {mem : Mem} {gsi : Symbol_t → Nat}
    {d : Nat} {st : State}
    (hOwner : offsets.py_interpreter_frame.owner = -1)
    (hfp : st.frame_ptr ≠ 0)
    (hcode : mem.word ((st.frame_ptr : Int) + offsets.py_frame_object.f_code) = none) :
    walkIter offsets mem gsi d st = .brk st := by
  unfold walkIter skipCStackFrame
  simp [hOwner, hfp, probeReadWord, hcode]

theorem walkLoop_fell_of_brk {offsets : PythonVersionOffsets} {mem : Mem} {gsi : Symbol_t → Nat}
    {d : Nat} {st : State}
    (h : walkIter offsets mem gsi d st = .brk st) (n : Nat) :
    walkLoop offsets mem gsi d n st = .fell st := by
  cases n with
  | zero => rfl
  | succ n =>
    unfold walkLoop
    rw [h]

/-- C3 (amended): a failed probe read of `f_code` during frame walking
breaks the loop and the sample is eventually published with exactly the
frames accumulated before the failure — but the `complete` branch is NOT
taken: because `state->frame_ptr` is left pointing at the unreadable frame,
every remaining tail call breaks again immediately, the tail-call budget is
consumed, and the sample is published with `stack_status = truncated`.
(Only a failed or zero `f_back` read reaches the `complete` label.) -/
theorem c3_fcode_failure_truncates (cfg : WalkerCfg) (offsets : PythonVersionOffsets) (mem : Mem)
    (gsi : Symbol_t → Nat) :
    ∀ (fuel : Nat) (st : State),
      offsets.py_interpreter_frame.owner = -1 →
      st.frame_ptr ≠ 0 →
      mem.word ((st.frame_ptr : Int) + offsets.py_frame_object.f_code) = none →
      1 ≤ fuel →
      cfg.progCnt ≤ st.stack_walker_prog_call_count + fuel →
      walkChain cfg offsets mem gsi fuel st = some { st.sample with stack_status := .truncated } := by
  intro fuel
  induction fuel with
  | zero => intro st _ _ _ h1 _; omega
  | succ n ih =>
    intro st hOwner hfp hcode _ hbudget
    have hbrk : walkIter offsets mem gsi cfg.maxStackDepth
        { st with stack_walker_prog_call_count := st.stack_walker_prog_call_count + 1 } =
        .brk { st with stack_walker_prog_call_count := st.stack_walker_prog_call_count + 1 } :=
      walkIter_brk_of_fcode_fail hOwner hfp hcode
    have hLoop := walkLoop_fell_of_brk hbrk cfg.framesPerProg
    unfold walkChain walk_python_stack
    rw [hLoop]
    by_cases hc : st.stack_walker_prog_call_count + 1 < cfg.progCnt
    · simp only [hc, if_true]
      exact ih _ hOwner hfp hcode (by omega)
        ((by omega : cfg.progCnt ≤ st.stack_walker_prog_call_count + 1 + n))
    · simp only [hc, if_false]

/-- Frame at 100 is readable (`f_code` at 108 is 500, `f_back` at 116 leads
to frame 200) but frame 200's `f_code` read at 208 fails. -/
def c3Mem : Mem :=
  ⟨fun a => if a = 108 then some 500 else if a = 116 then some 200 else none, fun _ => none⟩

def c3St : State :=
  { interpreter_info := c1Ii, thread_state := 0, current_pthread := 0, frame_ptr := 100
    stack_walker_prog_call_count := 0, sample := ⟨1, 2, [], .complete⟩ }

/-- Counterexample to C3: the `f_code` read of the second frame fails
mid-walk; the sample carries exactly the one frame accumulated before the
failure, but its status is `truncated` — not `complete` as the claim
states: the loop `break` re-reaches the tail call with `frame_ptr`
unchanged, the budget (2 calls) is consumed and the `truncated` branch is
taken. -/
theorem c3_counterexample :
    walkChain ⟨2, 2⟩ offsNoOwner c3Mem (fun _ => 7) 2 c3St = some ⟨1, 2, [7], .truncated⟩ := by
  decide

/-- Witness for the amended C3: a walker state already parked on the
unreadable frame publishes its accumulated (empty) stack as `truncated`. -/
theorem c3_fcode_failure_truncates_witness :
    walkChain ⟨2, 2⟩ offsNoOwner c3Mem (fun _ => 7) 2 { c3St with frame_ptr := 200 } =
      some ⟨1, 2, [], .truncated⟩ :=
  c3_fcode_failure_truncates ⟨2, 2⟩ offsNoOwner c3Mem (fun _ => 7) 2 { c3St with frame_ptr := 200 }
    rfl (by decide) rfl (by decide) (by decide)

/-!  ## C9: the 4-byte first-argument-name comparison -/

/-- Exactly which string ends up in `class_name`: the `tp_name` string via
the `ob_type` hop when the first four buffer bytes compare equal to
`"self"`, the direct `tp_name` string when they compare equal to
`"cls\0"`, and the untouched scratch otherwise. -/
theorem read_symbol_class_name (offsets : PythonVersionOffsets) (mem : Mem) (frame code : Nat)
    (sym0 : Symbol_t) :
    (read_symbol offsets mem frame code sym0).1.class_name =
      (if first4 ((mem.str (firstArgNameAddr offsets mem code)).getD sym0.method_name) = self_str then
        (mem.str (instanceTpNamePtr offsets mem frame)).getD sym0.class_name
      else if first4 ((mem.str (firstArgNameAddr offsets mem code)).getD sym0.method_name) = cls_str then
        (mem.str (clsTpNamePtr offsets mem frame)).getD sym0.class_name
      else sym0.class_name) := by
  unfold read_symbol
  simp only [setMethodName_class_name, setPath_class_name, setMethodName_method_name]
  by_cases hself : first4 ((mem.str (firstArgNameAddr offsets mem code)).getD sym0.method_name) = self_str
  · simp [hself, setClassName_class_name, setMethodName_class_name]
  · by_cases hcls : first4 ((mem.str (firstArgNameAddr offsets mem code)).getD sym0.method_name) = cls_str
    · simp [hself, hcls, setClassName_class_name, setMethodName_class_name, cls_str, self_str]
    · simp [hself, hcls, setMethodName_class_name]

theorem firstArgNameAddr_congr {offsets : PythonVersionOffsets} {mem mem' : Mem} {code : Nat}
    (h : mem.word = mem'.word) :
    firstArgNameAddr offsets mem code = firstArgNameAddr offsets mem' code := by
  unfold firstArgNameAddr probeReadWord
  rw [h]

theorem instanceTpNamePtr_congr {offsets : PythonVersionOffsets} {mem mem' : Mem} {frame : Nat}
    (h : mem.word = mem'.word) :
    instanceTpNamePtr offsets mem frame = instanceTpNamePtr offsets mem' frame := by
  unfold instanceTpNamePtr probeReadWord
  rw [h]

/-- C9: the first-argument-name comparison inspects only four bytes.  Any
name whose first four bytes are `s`,`e`,`l`,`f` (such as `"selfish"`)
takes the instance branch and fills `class_name` through
`f_localsplus[0] → ob_type → tp_name` exactly as the literal `"self"`
would (the two memories below differ only in that name string); the
`"cls"` comparison, whose fourth compared byte is the NUL terminator,
matches only the exact three-byte name, and any other first-argument name
leaves `class_name` untouched. -/
theorem c9_first_arg_4byte_compare :
    (∀ (offsets : PythonVersionOffsets) (mem mem' : Mem) (frame code : Nat) (nm : List Nat),
      mem.word = mem'.word →
      mem.str (firstArgNameAddr offsets mem code) = some nm →
      first4 nm = self_str →
      mem'.str (firstArgNameAddr offsets mem code) = some self_str →
      (∀ a, a ≠ firstArgNameAddr offsets mem code → mem.str a = mem'.str a) →
      instanceTpNamePtr offsets mem frame ≠ firstArgNameAddr offsets mem code →
      (read_symbol offsets mem frame code ⟨[], [], []⟩).1.class_name =
          (read_symbol offsets mem' frame code ⟨[], [], []⟩).1.class_name ∧
        (read_symbol offsets mem frame code ⟨[], [], []⟩).1.class_name =
          (mem.str (instanceTpNamePtr offsets mem frame)).getD []) ∧
    (∀ nm : List Nat, 0 ∉ nm → (first4 nm = cls_str ↔ nm = [99, 108, 115])) ∧
    (∀ (offsets : PythonVersionOffsets) (mem : Mem) (frame code : Nat) (nm : List Nat),
      mem.str (firstArgNameAddr offsets mem code) = some nm →
      first4 nm ≠ self_str → first4 nm ≠ cls_str →
      (read_symbol offsets mem frame code ⟨[], [], []⟩).1.class_name = []) := by
  refine ⟨?_, ?_, ?_⟩
  · intro offsets mem mem' frame code nm hword hnm hfour hnm' hagree hne
    have e1 := read_symbol_class_name offsets mem frame code ⟨[], [], []⟩
    rw [hnm] at e1
    simp only [Option.getD_some] at e1
    rw [if_pos hfour] at e1
    have e2 := read_symbol_class_name offsets mem' frame code ⟨[], [], []⟩
    rw [← firstArgNameAddr_congr hword] at e2
    rw [hnm'] at e2
    simp only [Option.getD_some] at e2
    rw [if_pos (by decide : first4 self_str = self_str)] at e2
    rw [← instanceTpNamePtr_congr hword] at e2
    rw [← hagree _ hne] at e2
    exact ⟨e1.trans e2.symm, e1⟩
  · intro nm h0
    constructor
    · intro h
      rcases nm with _ | ⟨a, _ | ⟨b, _ | ⟨c, _ | ⟨d, rest⟩⟩⟩⟩ <;> simp_all [first4, cls_str]
    · intro h
      subst h
      rfl
  · intro offsets mem frame code nm hnm hs hc
    have e := read_symbol_class_name offsets mem frame code ⟨[], [], []⟩
    rw [hnm] at e
    simp only [Option.getD_some] at e
    rw [if_neg hs, if_neg hc] at e
    exact e

/-- Word memory shared by the C9 witness memories: code object at 1000
(varnames tuple at 2000, first item's string at 3000), frame at 4000
(`f_localsplus[0]` = 5000, its type object 6000, `tp_name` string 7000). -/
def c9Word : Int → Option Nat := fun a =>
  if a = 1048 then some 2000
  else if a = 2004 then some 3000
  else if a = 4060 then some 5000
  else if a = 5004 then some 6000
  else if a = 6004 then some 7000
  else none

/-- First-argument name `"selfish"`, type name `"Foo"`. -/
def c9Mem : Mem :=
  ⟨c9Word, fun a =>
    if a = 3004 then some [115, 101, 108, 102, 105, 115, 104]
    else if a = 7000 then some [70, 111, 111]
    else none⟩

/-- The same memory with the literal name `"self"`. -/
def c9MemSelf : Mem :=
  ⟨c9Word, fun a =>
    if a = 3004 then some self_str
    else if a = 7000 then some [70, 111, 111]
    else none⟩

/-- First-argument name `"clsx"`: 4-byte compare matches neither. -/
def c9MemClsx : Mem :=
  ⟨c9Word, fun a =>
    if a = 3004 then some [99, 108, 115, 120]
    else if a = 7000 then some [70, 111, 111]
    else none⟩

/-- Witness for C9: `"selfish"` populates `class_name = "Foo"` exactly as
`"self"` does; `"cls"` satisfies the exact-match equivalence; `"clsx"`
leaves `class_name` empty. -/
theorem c9_first_arg_4byte_compare_witness :
    ((read_symbol offsNoOwner c9Mem 4000 1000 ⟨[], [], []⟩).1.class_name =
        (read_symbol offsNoOwner c9MemSelf 4000 1000 ⟨[], [], []⟩).1.class_name ∧
      (read_symbol offsNoOwner c9Mem 4000 1000 ⟨[], [], []⟩).1.class_name =
        (c9Mem.str (instanceTpNamePtr offsNoOwner c9Mem 4000)).getD []) ∧
    (first4 [99, 108, 115] = cls_str ↔ [99, 108, 115] = [99, 108, 115]) ∧
    (read_symbol offsNoOwner c9MemClsx 4000 1000 ⟨[], [], []⟩).1.class_name = [] := by
  refine ⟨?_, ?_, ?_⟩
  · refine c9_first_arg_4byte_compare.1 offsNoOwner c9Mem c9MemSelf 4000 1000
      [115, 101, 108, 102, 105, 115, 104] rfl (by decide) (by decide) (by decide) ?_ (by decide)
    intro a ha
    have h4 : a ≠ 3004 := fun h => ha (h.trans (by decide))
    show (if a = 3004 then some [115, 101, 108, 102, 105, 115, 104]
          else if a = 7000 then some [70, 111, 111] else none) =
        (if a = 3004 then some self_str else if a = 7000 then some [70, 111, 111] else none)
    rw [if_neg h4, if_neg h4]
  · exact c9_first_arg_4byte_compare.2.1 [99, 108, 115] (by decide)
  · exact c9_first_arg_4byte_compare.2.2 offsNoOwner c9MemClsx 4000 1000 [99, 108, 115, 120]
      (by decide) (by decide) (by decide)

/-!  ## C8 and C10: the C-stack-owner skip -/

/-- C8: when the version has the `owner` field and the current frame's
owner tag equals `FRAME_OWNED_BY_CSTACK`, the frame is skipped by
following `f_back` exactly once before any symbolization: a zero `f_back`
breaks out of the walk loop with nothing appended, and a nonzero `f_back`
pointing at a readable successor frame `b` means the iteration symbolizes
and appends `b` (the appended encoding is `frameEnc` of `b`, computed from
`b`'s code object) and then advances along `b`'s own `f_back`. -/
theorem c8_cstack_owner_skip
    (offsets : PythonVersionOffsets) (mem : Mem) (gsi : Symbol_t → Nat) (maxDepth : Nat)
    (st : State) (ow : Nat)
    (hOwner : offsets.py_interpreter_frame.owner ≠ -1)
    (hfp : st.frame_ptr ≠ 0)
    (how : mem.word ((st.frame_ptr : Int) + offsets.py_interpreter_frame.owner) = some ow)
    (htag : ow % 2 ^ 32 = FRAME_OWNED_BY_CSTACK) :
    (mem.word ((st.frame_ptr : Int) + offsets.py_frame_object.f_back) = some 0 →
      walkIter offsets mem gsi maxDepth st = .brk st) ∧
    (∀ b c : Nat, mem.word ((st.frame_ptr : Int) + offsets.py_frame_object.f_back) = some b → b ≠ 0 →
      mem.word ((b : Int) + offsets.py_frame_object.f_code) = some c → c ≠ 0 →
      walkIter offsets mem gsi maxDepth st =
        (if (probeReadWord mem ((b : Int) + offsets.py_frame_object.f_back)).2 = 0 then
          IterOut.completeJump (advanceState offsets mem gsi maxDepth st b)
        else IterOut.next (advanceState offsets mem gsi maxDepth st b))) := by
  have htag32 : ow % 4294967296 = FRAME_OWNED_BY_CSTACK := htag
  constructor
  · intro hfb
    unfold walkIter skipCStackFrame
    simp [hOwner, hfp, probeReadU32, probeReadWord, how, htag32, hfb]
  · intro b c hfb hb hc hc0
    unfold walkIter skipCStackFrame
    simp [hOwner, hfp, probeReadU32, probeReadWord, how, htag32, hfb, hb, hc, hc0]

/-- C10: the owner check runs at most once per iteration.  If the current
frame and its `f_back` successor are both owned by the C stack, the
successor's owner tag is not re-checked: the successor is symbolized and
its encoding appended to the stack. -/
theorem c10_owner_checked_once
    (offsets : PythonVersionOffsets) (mem : Mem) (gsi : Symbol_t → Nat) (maxDepth : Nat)
    (st : State) (owa owb b c : Nat)
    (hOwner : offsets.py_interpreter_frame.owner ≠ -1)
    (hfp : st.frame_ptr ≠ 0)
    (howa : mem.word ((st.frame_ptr : Int) + offsets.py_interpreter_frame.owner) = some owa)
    (htaga : owa % 2 ^ 32 = FRAME_OWNED_BY_CSTACK)
    (hfb : mem.word ((st.frame_ptr : Int) + offsets.py_frame_object.f_back) = some b)
    (hb : b ≠ 0)
    (howb : mem.word ((b : Int) + offsets.py_interpreter_frame.owner) = some owb)
    (htagb : owb % 2 ^ 32 = FRAME_OWNED_BY_CSTACK)
    (hc : mem.word ((b : Int) + offsets.py_frame_object.f_code) = some c) (hc0 : c ≠ 0)
    (hlen : st.sample.stack.length < maxDepth) :
    ((walkIter offsets mem gsi maxDepth st).state).sample.stack =
      st.sample.stack ++ [frameEnc offsets mem gsi b] := by
  have h := (c8_cstack_owner_skip offsets mem gsi maxDepth st owa hOwner hfp howa htaga).2
    b c hfb hb hc hc0
  rw [h]
  by_cases hz : (probeReadWord mem ((b : Int) + offsets.py_frame_object.f_back)).2 = 0
  · rw [if_pos hz]
    show (advanceState offsets mem gsi maxDepth st b).sample.stack = _
    unfold advanceState pushFrame
    simp [hlen]
  · rw [if_neg hz]
    show (advanceState offsets mem gsi maxDepth st b).sample.stack = _
    unfold advanceState pushFrame
    simp [hlen]

/-- The C8/C10 witness scene: frame 100 is C-stack-owned with `f_back`
leading to frame 200, itself C-stack-owned, with code object 600 and a zero
`f_back`. -/
def c8Mem : Mem :=
  ⟨fun a =>
      if a = 100 then some 3
      else if a = 116 then some 200
      else if a = 200 then some 3
      else if a = 208 then some 600
      else if a = 216 then some 0
      else none,
    fun _ => none⟩

/-- Frame 100 is C-stack-owned and its `f_back` is zero. -/
def c8MemZero : Mem :=
  ⟨fun a => if a = 100 then some 3 else if a = 116 then some 0 else none, fun _ => none⟩

def c8St : State :=
  { interpreter_info := c1Ii, thread_state := 0, current_pthread := 0, frame_ptr := 100
    stack_walker_prog_call_count := 1, sample := ⟨1, 2, [], .complete⟩ }

/-- Witness for C8: the zero-`f_back` half at a concrete C-stack-owned
frame. -/
theorem c8_cstack_owner_skip_witness :
    walkIter offsOwner c8MemZero (fun _ => 7) 4 c8St = .brk c8St :=
  (c8_cstack_owner_skip offsOwner c8MemZero (fun _ => 7) 4 c8St 3
    (by decide) (by decide) rfl (by decide)).1 rfl

/-- Witness for C10: two consecutive C-stack-owned frames; the second one
(at 200) is symbolized and appended. -/
theorem c10_owner_checked_once_witness :
    ((walkIter offsOwner c8Mem (fun _ => 7) 4 c8St).state).sample.stack =
      [] ++ [frameEnc offsOwner c8Mem (fun _ => 7) 200] :=
  c10_owner_checked_once offsOwner c8Mem (fun _ => 7) 4 c8St 3 3 200 600
    (by decide) (by decide) rfl (by decide) rfl (by decide) rfl (by decide) rfl (by decide)
    (by decide)

/-!  ## C7: boundary behaviour at MAX_STACK_DEPTH -/

theorem pushList_append {d : Nat} : ∀ (es : List Nat) (s : Sample), s.stack.length + es.length ≤ d →
    pushList d s es = { s with stack := s.stack ++ es }
  | [], s, _ => by simp [pushList]
  | e :: es, s, h => by
    have hlt : s.stack.length < d := by
      simp only [List.length_cons] at h
      omega
    have hpush : pushFrame d s e = { s with stack := s.stack ++ [e] } := by
      unfold pushFrame
      rw [if_pos hlt]
    show pushList d (pushFrame d s e) es = _
    rw [hpush, pushList_append es _
      (by
        simp only [List.length_append, List.length_cons, List.length_nil] at h ⊢
        omega)]
    simp

/-- A readable frame chain for a version without the `owner` field: every
frame address is nonzero, its `f_code` read succeeds with a nonzero code
pointer, and its `f_back` read yields the next address (0 after the last). -/
def isChain (offsets : PythonVersionOffsets) (mem : Mem) : List Nat → Prop
  | [] => True
  | a :: rest =>
    a ≠ 0 ∧
    (probeReadWord mem ((a : Int) + offsets.py_frame_object.f_code)).1 = 0 ∧
    (probeReadWord mem ((a : Int) + offsets.py_frame_object.f_code)).2 ≠ 0 ∧
    mem.word ((a : Int) + offsets.py_frame_object.f_back) = some (rest.headD 0) ∧
    isChain offsets mem rest

theorem isChain_drop {offsets : PythonVersionOffsets} {mem : Mem} :
    ∀ (n : Nat) (l : List Nat), isChain offsets mem l → isChain offsets mem (l.drop n)
  | 0, _, h => h
  | _ + 1, [], h => h
  | n + 1, _ :: rest, h => isChain_drop n rest h.2.2.2.2

theorem isChain_headD_zero {offsets : PythonVersionOffsets} {mem : Mem} :
    ∀ {rest : List Nat}, isChain offsets mem rest → rest.headD 0 = 0 → rest = []
  | [], _, _ => rfl
  | _ :: _, h, hz => absurd hz h.1

/-- One iteration on the head of a readable chain: the head is symbolized,
its encoding append-guarded, and the cursor advances to the next link;
`goto complete` fires exactly when the next link is zero. -/
theorem walkIter_chain {offsets : PythonVersionOffsets} {mem : Mem} {gsi : Symbol_t → Nat} {d : Nat}
    (hOwner : offsets.py_interpreter_frame.owner = -1)
    {a : Nat} {rest : List Nat} (h : isChain offsets mem (a :: rest)) {st : State}
    (hfp : st.frame_ptr = a) :
    walkIter offsets mem gsi d st =
      if rest.headD 0 = 0 then
        IterOut.completeJump
          { st with frame_ptr := rest.headD 0
                    sample := pushFrame d st.sample (frameEnc offsets mem gsi a) }
      else
        IterOut.next
          { st with frame_ptr := rest.headD 0
                    sample := pushFrame d st.sample (frameEnc offsets mem gsi a) } := by
  obtain ⟨ha, he, hv, hb, -⟩ := h
  unfold walkIter skipCStackFrame advanceState frameEnc
  rw [hfp]
  have hb2 : (probeReadWord mem ((a : Int) + offsets.py_frame_object.f_back)).2 = rest.headD 0 := by
    unfold probeReadWord
    rw [hb]
  simp only [hOwner, ha, he, hv, hb2, ne_eq, neg_neg, not_true_eq_false, if_false,
    decide_not, not_false_eq_true, if_true]

/-- The walker's bounded loop on a readable chain: with `fuel` iterations
left it either consumes the whole chain (reaching `goto complete` on the
last frame) or falls out after `fuel` frames with the cursor on the next
unprocessed frame. -/
theorem walkLoop_chain {offsets : PythonVersionOffsets} {mem : Mem} {gsi : Symbol_t → Nat} {d : Nat}
    (hOwner : offsets.py_interpreter_frame.owner = -1) :
    ∀ (l : List Nat) (fuel : Nat) (st : State), isChain offsets mem l → st.frame_ptr = l.headD 0 →
    walkLoop offsets mem gsi d fuel st =
      (if l = [] then .fell st
      else if fuel < l.length then
        .fell { st with frame_ptr := (l.drop fuel).headD 0
                        sample := pushList d st.sample ((l.take fuel).map (frameEnc offsets mem gsi)) }
      else
        .completed { st with frame_ptr := 0
                             sample := pushList d st.sample (l.map (frameEnc offsets mem gsi)) }) := by
  intro l
  induction l with
  | nil =>
    intro fuel st _ hfp
    rw [if_pos rfl]
    have hfp0 : st.frame_ptr = 0 := hfp
    have hbrk : walkIter offsets mem gsi d st = .brk st := by
      unfold walkIter
      rw [if_pos hfp0]
    cases fuel with
    | zero => rfl
    | succ n =>
      unfold walkLoop
      rw [hbrk]
  | cons a rest ih =>
    intro fuel st hchain hfp
    rw [if_neg (by simp : ¬(a :: rest) = [])]
    cases fuel with
    | zero =>
      rw [if_pos (by simp : 0 < (a :: rest).length)]
      show LoopOut.fell st = _
      have hfp' : st.frame_ptr = a := hfp
      have : { st with frame_ptr := ((a :: rest).drop 0).headD 0
                       sample := pushList d st.sample (((a :: rest).take 0).map (frameEnc offsets mem gsi)) } =
          st := by
        show { st with frame_ptr := a, sample := st.sample } = st
        rw [← hfp']
      rw [this]
    | succ n =>
      have hiter := @walkIter_chain offsets mem gsi d hOwner a rest hchain st hfp
      unfold walkLoop
      rw [hiter]
      by_cases hz : rest.headD 0 = 0
      · have hrest : rest = [] := isChain_headD_zero hchain.2.2.2.2 hz
        subst hrest
        rw [if_pos hz]
        rw [if_neg (by simp : ¬(n + 1 < ([a] : List Nat).length))]
        rfl
      · rw [if_neg hz]
        have hrest : rest ≠ [] := fun h => hz (by rw [h]; rfl)
        show walkLoop offsets mem gsi d n _ = _
        rw [ih n _ hchain.2.2.2.2 rfl]
        rw [if_neg hrest]
        by_cases hlen : n < rest.length
        · rw [if_pos hlen,
            if_pos (by simp only [List.length_cons]; omega : n + 1 < (a :: rest).length)]
          rfl
        · rw [if_neg hlen,
            if_neg (by simp only [List.length_cons]; omega : ¬(n + 1 < (a :: rest).length))]
          rfl

theorem walkChain_succ (cfg : WalkerCfg) (offsets : PythonVersionOffsets) (mem : Mem)
    (gsi : Symbol_t → Nat) (fuel : Nat) (st : State) :
    walkChain cfg offsets mem gsi (fuel + 1) st =
      match walk_python_stack cfg offsets mem gsi st with
      | .submit s => some s
      | .tailCall st' => walkChain cfg offsets mem gsi fuel st' := rfl

theorem walkChain_step_tailCall {cfg : WalkerCfg} {offsets : PythonVersionOffsets} {mem : Mem}
    {gsi : Symbol_t → Nat} {fuel : Nat} {st st' : State}
    (h : walk_python_stack cfg offsets mem gsi st = .tailCall st') :
    walkChain cfg offsets mem gsi (fuel + 1) st = walkChain cfg offsets mem gsi fuel st' := by
  rw [walkChain_succ, h]

theorem walkChain_step_submit {cfg : WalkerCfg} {offsets : PythonVersionOffsets} {mem : Mem}
    {gsi : Symbol_t → Nat} {fuel : Nat} {st : State} {s : Sample}
    (h : walk_python_stack cfg offsets mem gsi st = .submit s) :
    walkChain cfg offsets mem gsi (fuel + 1) st = some s := by
  rw [walkChain_succ, h]

theorem walk_python_stack_of_fell {cfg : WalkerCfg} {offsets : PythonVersionOffsets} {mem : Mem}
    {gsi : Symbol_t → Nat} {st stF : State}
    (h : walkLoop offsets mem gsi cfg.maxStackDepth cfg.framesPerProg
        { st with stack_walker_prog_call_count := st.stack_walker_prog_call_count + 1 } = .fell stF) :
    walk_python_stack cfg offsets mem gsi st =
      if stF.stack_walker_prog_call_count < cfg.progCnt then .tailCall stF
      else .submit { stF.sample with stack_status := .truncated } := by
  unfold walk_python_stack
  rw [h]

theorem walk_python_stack_of_completed {cfg : WalkerCfg} {offsets : PythonVersionOffsets} {mem : Mem}
    {gsi : Symbol_t → Nat} {st stF : State}
    (h : walkLoop offsets mem gsi cfg.maxStackDepth cfg.framesPerProg
        { st with stack_walker_prog_call_count := st.stack_walker_prog_call_count + 1 } = .completed stF) :
    walk_python_stack cfg offsets mem gsi st = .submit { stF.sample with stack_status := .complete } := by
  unfold walk_python_stack
  rw [h]

/-- A chain whose remaining length is exactly `k * FRAMES_PER_PROG`
(`k ≥ 1` invocations, within the tail-call budget) is consumed completely:
the published sample appends every frame's encoding and is `complete`. -/
theorem walkChain_complete {cfg : WalkerCfg} {offsets : PythonVersionOffsets} {mem : Mem}
    {gsi : Symbol_t → Nat}
    (hOwner : offsets.py_interpreter_frame.owner = -1) (hfpp : 1 ≤ cfg.framesPerProg) :
    ∀ (k fuel : Nat) (l : List Nat) (st : State),
      1 ≤ k →
      isChain offsets mem l →
      st.frame_ptr = l.headD 0 →
      l.length = k * cfg.framesPerProg →
      st.stack_walker_prog_call_count + k ≤ cfg.progCnt →
      st.sample.stack.length + l.length ≤ cfg.maxStackDepth →
      k ≤ fuel →
      walkChain cfg offsets mem gsi fuel st =
        some { st.sample with stack := st.sample.stack ++ l.map (frameEnc offsets mem gsi)
                              stack_status := .complete } := by
  intro k
  induction k with
  | zero => intro fuel l st h1; omega
  | succ k ih =>
    intro fuel l st _ hchain hfp hlen hcount hstack hfuel
    obtain ⟨fuel', rfl⟩ : ∃ f, fuel = f + 1 := ⟨fuel - 1, by omega⟩
    have hLoop := @walkLoop_chain offsets mem gsi cfg.maxStackDepth hOwner l cfg.framesPerProg
      { st with stack_walker_prog_call_count := st.stack_walker_prog_call_count + 1 } hchain hfp
    have hlne : l ≠ [] := by
      intro h
      subst h
      simp only [List.length_nil] at hlen
      have : 1 * cfg.framesPerProg ≤ (k + 1) * cfg.framesPerProg :=
        Nat.mul_le_mul_right cfg.framesPerProg (by omega)
      omega
    cases k with
    | zero =>
      have hnlt : ¬(cfg.framesPerProg < l.length) := by
        rw [hlen]
        omega
      rw [if_neg hlne, if_neg hnlt] at hLoop
      rw [walkChain_step_submit (walk_python_stack_of_completed hLoop)]
      rw [Option.some.injEq]
      show ({ pushList cfg.maxStackDepth st.sample (l.map (frameEnc offsets mem gsi)) with
          stack_status := StackStatus.complete } : Sample) = _
      rw [pushList_append _ _ (by rw [List.length_map]; exact hstack)]
    | succ k' =>
      have hmul1 : 1 * cfg.framesPerProg ≤ (k' + 1) * cfg.framesPerProg :=
        Nat.mul_le_mul_right cfg.framesPerProg (by omega)
      have hmul : (k' + 1 + 1) * cfg.framesPerProg = (k' + 1) * cfg.framesPerProg + cfg.framesPerProg := by
        ring
      have hlt : cfg.framesPerProg < l.length := by
        rw [hlen]
        omega
      rw [if_neg hlne, if_pos hlt] at hLoop
      have hside : st.sample.stack.length +
          ((l.take cfg.framesPerProg).map (frameEnc offsets mem gsi)).length ≤ cfg.maxStackDepth := by
        rw [List.length_map, List.length_take, min_eq_left (le_of_lt hlt)]
        omega
      have hcnt : st.stack_walker_prog_call_count + 1 < cfg.progCnt := by omega
      have hstep := walk_python_stack_of_fell hLoop
      simp only [hcnt, if_true] at hstep
      rw [walkChain_step_tailCall hstep]
      rw [ih fuel' (l.drop cfg.framesPerProg) _ (by omega) (isChain_drop _ _ hchain) rfl
        (by
          rw [List.length_drop, hlen]
          omega)
        ((by omega : st.stack_walker_prog_call_count + 1 + (k' + 1) ≤ cfg.progCnt))
        (by
          show (pushList cfg.maxStackDepth st.sample
              ((l.take cfg.framesPerProg).map (frameEnc offsets mem gsi))).stack.length +
            (l.drop cfg.framesPerProg).length ≤ cfg.maxStackDepth
          rw [pushList_append _ _ hside, List.length_append, List.length_map, List.length_take,
            min_eq_left (le_of_lt hlt), List.length_drop]
          omega)
        (by omega)]
      rw [Option.some.injEq]
      show ({ pushList cfg.maxStackDepth st.sample ((l.take cfg.framesPerProg).map (frameEnc offsets mem gsi)) with
          stack := (pushList cfg.maxStackDepth st.sample
              ((l.take cfg.framesPerProg).map (frameEnc offsets mem gsi))).stack ++
            (l.drop cfg.framesPerProg).map (frameEnc offsets mem gsi)
          stack_status := StackStatus.complete } : Sample) = _
      rw [pushList_append _ _ hside]
      show ({ st.sample with
          stack := (st.sample.stack ++ (l.take cfg.framesPerProg).map (frameEnc offsets mem gsi)) ++
            (l.drop cfg.framesPerProg).map (frameEnc offsets mem gsi)
          stack_status := StackStatus.complete } : Sample) = _
      rw [List.append_assoc, ← List.map_append, List.take_append_drop]

/-- A chain with one frame more than `k * FRAMES_PER_PROG` when only `k`
invocations remain (the counter reaching `PYTHON_STACK_PROG_CNT` exactly):
the walker appends the first `k * FRAMES_PER_PROG` encodings and publishes
`truncated`. -/
theorem walkChain_truncated {cfg : WalkerCfg} {offsets : PythonVersionOffsets} {mem : Mem}
    {gsi : Symbol_t → Nat}
    (hOwner : offsets.py_interpreter_frame.owner = -1) (hfpp : 1 ≤ cfg.framesPerProg) :
    ∀ (k fuel : Nat) (l : List Nat) (st : State),
      1 ≤ k →
      isChain offsets mem l →
      st.frame_ptr = l.headD 0 →
      l.length = k * cfg.framesPerProg + 1 →
      st.stack_walker_prog_call_count + k = cfg.progCnt →
      st.sample.stack.length + k * cfg.framesPerProg ≤ cfg.maxStackDepth →
      k ≤ fuel →
      walkChain cfg offsets mem gsi fuel st =
        some { st.sample with
          stack := st.sample.stack ++ (l.take (k * cfg.framesPerProg)).map (frameEnc offsets mem gsi)
          stack_status := .truncated } := by
  intro k
  induction k with
  | zero => intro fuel l st h1; omega
  | succ k ih =>
    intro fuel l st _ hchain hfp hlen hcount hstack hfuel
    obtain ⟨fuel', rfl⟩ : ∃ f, fuel = f + 1 := ⟨fuel - 1, by omega⟩
    have hLoop := @walkLoop_chain offsets mem gsi cfg.maxStackDepth hOwner l cfg.framesPerProg
      { st with stack_walker_prog_call_count := st.stack_walker_prog_call_count + 1 } hchain hfp
    have hlne : l ≠ [] := by
      intro h
      subst h
      simp only [List.length_nil] at hlen
      omega
    have hmul1 : 1 * cfg.framesPerProg ≤ (k + 1) * cfg.framesPerProg :=
      Nat.mul_le_mul_right cfg.framesPerProg (by omega)
    have hlt : cfg.framesPerProg < l.length := by
      rw [hlen]
      omega
    rw [if_neg hlne, if_pos hlt] at hLoop
    have hside : st.sample.stack.length +
        ((l.take cfg.framesPerProg).map (frameEnc offsets mem gsi)).length ≤ cfg.maxStackDepth := by
      rw [List.length_map, List.length_take, min_eq_left (le_of_lt hlt)]
      omega
    have hstep := walk_python_stack_of_fell hLoop
    cases k with
    | zero =>
      have hncnt : ¬(st.stack_walker_prog_call_count + 1 < cfg.progCnt) := by omega
      simp only [hncnt, if_false] at hstep
      rw [walkChain_step_submit hstep]
      rw [Option.some.injEq]
      show ({ pushList cfg.maxStackDepth st.sample ((l.take cfg.framesPerProg).map (frameEnc offsets mem gsi)) with
          stack_status := StackStatus.truncated } : Sample) = _
      rw [pushList_append _ _ hside]
      show ({ st.sample with
          stack := st.sample.stack ++ (l.take cfg.framesPerProg).map (frameEnc offsets mem gsi)
          stack_status := StackStatus.truncated } : Sample) = _
      rw [(by ring : (0 + 1) * cfg.framesPerProg = cfg.framesPerProg)]
    | succ k' =>
      have hcnt : st.stack_walker_prog_call_count + 1 < cfg.progCnt := by omega
      simp only [hcnt, if_true] at hstep
      rw [walkChain_step_tailCall hstep]
      have hmul : (k' + 1 + 1) * cfg.framesPerProg = (k' + 1) * cfg.framesPerProg + cfg.framesPerProg := by
        ring
      rw [ih fuel' (l.drop cfg.framesPerProg) _ (by omega) (isChain_drop _ _ hchain) rfl
        (by
          rw [List.length_drop, hlen]
          omega)
        ((by omega : st.stack_walker_prog_call_count + 1 + (k' + 1) = cfg.progCnt))
        (by
          show (pushList cfg.maxStackDepth st.sample
              ((l.take cfg.framesPerProg).map (frameEnc offsets mem gsi))).stack.length +
            (k' + 1) * cfg.framesPerProg ≤ cfg.maxStackDepth
          rw [pushList_append _ _ hside, List.length_append, List.length_map, List.length_take,
            min_eq_left (le_of_lt hlt)]
          omega)
        (by omega)]
      rw [Option.some.injEq]
      show ({ pushList cfg.maxStackDepth st.sample ((l.take cfg.framesPerProg).map (frameEnc offsets mem gsi)) with
          stack := (pushList cfg.maxStackDepth st.sample
              ((l.take cfg.framesPerProg).map (frameEnc offsets mem gsi))).stack ++
            ((l.drop cfg.framesPerProg).take ((k' + 1) * cfg.framesPerProg)).map (frameEnc offsets mem gsi)
          stack_status := StackStatus.truncated } : Sample) = _
      rw [pushList_append _ _ hside]
      show ({ st.sample with
          stack := (st.sample.stack ++ (l.take cfg.framesPerProg).map (frameEnc offsets mem gsi)) ++
            ((l.drop cfg.framesPerProg).take ((k' + 1) * cfg.framesPerProg)).map (frameEnc offsets mem gsi)
          stack_status := StackStatus.truncated } : Sample) = _
      rw [List.append_assoc, ← List.map_append, hmul, Nat.add_comm ((k' + 1) * cfg.framesPerProg)
        cfg.framesPerProg, List.take_add]

/-- C7: starting from the P1 hand-off state (empty stack, zero tail-call
counter), a readable chain of length exactly
`MAX_STACK_DEPTH = PYTHON_STACK_FRAMES_PER_PROG * PYTHON_STACK_PROG_CNT`
publishes a sample with `stack_status = complete` and length
`MAX_STACK_DEPTH`, while a chain of length `MAX_STACK_DEPTH + 1` publishes
`stack_status = truncated` with length exactly `MAX_STACK_DEPTH`. -/
theorem c7_boundary_behavior (cfg : WalkerCfg) (offsets : PythonVersionOffsets) (mem : Mem)
    (gsi : Symbol_t → Nat)
    (hfpp : 1 ≤ cfg.framesPerProg) (hpc : 1 ≤ cfg.progCnt)
    (hOwner : offsets.py_interpreter_frame.owner = -1) :
    (∀ (l : List Nat) (st : State),
      isChain offsets mem l → l.length = cfg.maxStackDepth →
      st.frame_ptr = l.headD 0 → st.sample.stack = [] → st.stack_walker_prog_call_count = 0 →
      sampleStatus (walkChain cfg offsets mem gsi cfg.progCnt st) = some .complete ∧
        sampleLen (walkChain cfg offsets mem gsi cfg.progCnt st) = some cfg.maxStackDepth) ∧
    (∀ (l : List Nat) (st : State),
      isChain offsets mem l → l.length = cfg.maxStackDepth + 1 →
      st.frame_ptr = l.headD 0 → st.sample.stack = [] → st.stack_walker_prog_call_count = 0 →
      sampleStatus (walkChain cfg offsets mem gsi cfg.progCnt st) = some .truncated ∧
        sampleLen (walkChain cfg offsets mem gsi cfg.progCnt st) = some cfg.maxStackDepth) := by
  constructor
  · intro l st hchain hlen hfp hnil hcnt
    have h := @walkChain_complete cfg offsets mem gsi hOwner hfpp cfg.progCnt cfg.progCnt l st hpc hchain hfp
      (by
        rw [hlen]
        unfold WalkerCfg.maxStackDepth
        ring)
      (by omega)
      (by
        rw [hnil, hlen]
        simp)
      (le_refl _)
    rw [h]
    refine ⟨rfl, ?_⟩
    show some (st.sample.stack ++ l.map (frameEnc offsets mem gsi)).length = some cfg.maxStackDepth
    rw [hnil]
    simp [hlen]
  · intro l st hchain hlen hfp hnil hcnt
    have h := @walkChain_truncated cfg offsets mem gsi hOwner hfpp cfg.progCnt cfg.progCnt l st hpc hchain hfp
      (by
        rw [hlen]
        unfold WalkerCfg.maxStackDepth
        ring)
      (by omega)
      (by
        rw [hnil]
        unfold WalkerCfg.maxStackDepth
        simp [Nat.mul_comm])
      (le_refl _)
    rw [h]
    refine ⟨rfl, ?_⟩
    have hminle : cfg.progCnt * cfg.framesPerProg ≤ l.length := by
      rw [hlen]
      unfold WalkerCfg.maxStackDepth
      rw [Nat.mul_comm]
      omega
    show some (st.sample.stack ++
        (l.take (cfg.progCnt * cfg.framesPerProg)).map (frameEnc offsets mem gsi)).length =
      some cfg.maxStackDepth
    rw [hnil]
    simp only [List.nil_append, List.length_map, List.length_take, WalkerCfg.maxStackDepth,
      Option.some.injEq]
    rw [min_eq_left hminle, Nat.mul_comm]

/-- One readable frame at 100 whose `f_back` is zero. -/
def c7MemA : Mem :=
  ⟨fun a => if a = 108 then some 500 else if a = 116 then some 0 else none, fun _ => none⟩

/-- Two readable frames 100 → 200, the second one terminal. -/
def c7MemB : Mem :=
  ⟨fun a =>
      if a = 108 then some 500
      else if a = 116 then some 200
      else if a = 208 then some 500
      else if a = 216 then some 0
      else none,
    fun _ => none⟩

/-- Witness for C7 with `FRAMES_PER_PROG = PROG_CNT = 1` (so
`MAX_STACK_DEPTH = 1`): a 1-frame chain completes at length 1, a 2-frame
chain truncates at length 1. -/
theorem c7_boundary_behavior_witness :
    (sampleStatus (walkChain ⟨1, 1⟩ offsNoOwner c7MemA (fun _ => 7) 1 c3St) = some .complete ∧
      sampleLen (walkChain ⟨1, 1⟩ offsNoOwner c7MemA (fun _ => 7) 1 c3St) = some 1) ∧
    (sampleStatus (walkChain ⟨1, 1⟩ offsNoOwner c7MemB (fun _ => 7) 1 c3St) = some .truncated ∧
      sampleLen (walkChain ⟨1, 1⟩ offsNoOwner c7MemB (fun _ => 7) 1 c3St) = some 1) := by
  constructor
  · exact (c7_boundary_behavior ⟨1, 1⟩ offsNoOwner c7MemA (fun _ => 7) (by decide) (by decide) rfl).1
      [100] c3St ⟨by decide, by decide, by decide, by decide, trivial⟩ rfl rfl rfl rfl
  · exact (c7_boundary_behavior ⟨1, 1⟩ offsNoOwner c7MemB (fun _ => 7) (by decide) (by decide) rfl).2
      [100, 200] c3St
      ⟨by decide, by decide, by decide, by decide, by decide, by decide, by decide, by decide, trivial⟩
      rfl rfl rfl rfl
